import Mathlib

/-!
Verification development for the `catgets.c` message-catalog implementation
(POSIX `catopen` / `catgets` / `catclose` family).

The source is shallowly embedded: byte strings become `List Nat` (one `Nat`
per byte), the table-driven escape finite-state machine of `transform_string`
becomes a structural recursion over the input bytes, the catalog parser
`catread` becomes a function from the file's physical lines to an optional
catalog, the `NLSPATH`-style template expansion inside `catopen` becomes a
candidate-list generator, and the process-wide registry `theCatalogues`
becomes an explicit `Option (List Catalog)` state threaded through the API
functions (`none` models the lazily-allocated registry not existing yet).

The generic dynamic-string (`dynstr.h`) and dynamic-array (`dynarray.h`)
helpers used by the source are external collaborators whose files are not
part of the verified sources; they are modelled as ordinary list operations
(noted where their behaviour is load-bearing).
-/

set_option maxRecDepth 4000

namespace Catgets

/-- ASCII byte string of a Lean string literal. -/
def bytes (s : String) : List Nat := s.data.map Char.toNat

/-- `isdigit` on a byte. -/
def isDigitB (c : Nat) : Bool := decide (48 ≤ c ∧ c ≤ 57)

/-- Octal digit test, `strchr ("01234567", c) != 0` in the source. -/
def isODigitB (c : Nat) : Bool := decide (48 ≤ c ∧ c ≤ 55)

/-- `isxdigit` on a byte. -/
def isXDigitB (c : Nat) : Bool :=
  isDigitB c || decide (97 ≤ c ∧ c ≤ 102) || decide (65 ≤ c ∧ c ≤ 70)

/-- Value of a hex digit: `strchr (hexits, tolower (c)) - hexits` in the
source, where `hexits = "0123456789abcdef"`. -/
def hexVal (c : Nat) : Nat :=
  if isDigitB c then c - 48 else if 97 ≤ c then c - 87 else c - 55

/-- Shallow embedding of the `transform_string` finite-state machine
(`catgets.c`, the `fsm` table and the action `switch`).  States: `0` start,
`1` after a backslash, `2` after `\d`, `3`/`31` octal accumulation, `4` hex
accumulation, `21`/`22` decimal accumulation.  The rows of the `fsm` table
appear below in table order as nested conditionals.  Appended bytes are
reduced `% 256` (storing an `int` accumulator into a `char` cell of the
dynamic string).  The loop guard `ip < DSlength (s) && c != '\0'` is the
`[]` base case together with the `c = 0` test; in particular the loop ends
at end of input with any pending accumulator dropped.  The `FSM_RETAIN`
action emits the accumulator, resets it, moves to state `0` and re-processes
the current character without consuming it; to keep the recursion structural
the single state-0 step that the re-processed character then takes is
inlined at each retain site, and `transformAux_state0` below proves that the
inlined form is exactly the state-0 row of the table. -/
def transformAux : Nat → Nat → List Nat → List Nat
  | _, _, [] => []
  | state, accum, c :: rest =>
    if c = 0 then []
    else if state = 0 then
      -- 0, '\\', FSM_SUPPRESS, 1  /  0, FSM_ANY, FSM_OUTPUT, 0
      if c = 92 then transformAux 1 0 rest
      else c % 256 :: transformAux 0 accum rest
    else if state = 1 then
      if c = 98 then 8 :: transformAux 0 accum rest        -- 1, 'b', '\b', 0
      else if c = 101 then 27 :: transformAux 0 accum rest -- 1, 'e', '\033', 0
      else if c = 102 then 12 :: transformAux 0 accum rest -- 1, 'f', '\f', 0
      else if c = 110 then 10 :: transformAux 0 accum rest -- 1, 'n', '\n', 0
      else if c = 114 then 13 :: transformAux 0 accum rest -- 1, 'r', '\r', 0
      else if c = 116 then 9 :: transformAux 0 accum rest  -- 1, 't', '\t', 0
      else if c = 118 then 11 :: transformAux 0 accum rest -- 1, 'v', '\v', 0
      else if c = 92 then 92 :: transformAux 0 accum rest  -- 1, '\\', '\\', 0
      else if c = 100 then transformAux 2 0 rest           -- 1, 'd', FSM_SUPPRESS, 2
      else if isODigitB c then transformAux 3 (accum * 8 + (c - 48)) rest
                                                           -- 1, FSM_ODIGIT, FSM_BASE8, 3
      else if c = 120 then transformAux 4 0 rest           -- 1, 'x', FSM_SUPPRESS, 4
      else c % 256 :: transformAux 0 accum rest            -- 1, FSM_ANY, FSM_OUTPUT, 0
    else if state = 2 then
      if isDigitB c then transformAux 21 (accum * 10 + (c - 48)) rest
                                                           -- 2, FSM_DIGIT, FSM_BASE10, 21
      else                                                 -- 2, FSM_ANY, FSM_RETAIN, 0
        accum % 256 ::
          (if c = 92 then transformAux 1 0 rest else c % 256 :: transformAux 0 0 rest)
    else if state = 3 then
      if isODigitB c then transformAux 31 (accum * 8 + (c - 48)) rest
                                                           -- 3, FSM_ODIGIT, FSM_BASE8, 31
      else                                                 -- 3, FSM_ANY, FSM_RETAIN, 0
        accum % 256 ::
          (if c = 92 then transformAux 1 0 rest else c % 256 :: transformAux 0 0 rest)
    else if state = 4 then
      if isXDigitB c then transformAux 4 (accum * 16 + hexVal c) rest
                                                           -- 4, FSM_XDIGIT, FSM_BASE16, 4
      else                                                 -- 4, FSM_ANY, FSM_RETAIN, 0
        accum % 256 ::
          (if c = 92 then transformAux 1 0 rest else c % 256 :: transformAux 0 0 rest)
    else if state = 21 then
      if isDigitB c then transformAux 22 (accum * 10 + (c - 48)) rest
                                                           -- 21, FSM_DIGIT, FSM_BASE10, 22
      else                                                 -- 21, FSM_ANY, FSM_RETAIN, 0
        accum % 256 ::
          (if c = 92 then transformAux 1 0 rest else c % 256 :: transformAux 0 0 rest)
    else if state = 22 then
      if isDigitB c then (accum * 10 + (c - 48)) % 256 :: transformAux 0 0 rest
                                                           -- 22, FSM_DIGIT, FSM_BASE10_OUTPUT, 0
      else                                                 -- 22, FSM_ANY, FSM_RETAIN, 0
        accum % 256 ::
          (if c = 92 then transformAux 1 0 rest else c % 256 :: transformAux 0 0 rest)
    else if state = 31 then
      if isODigitB c then (accum * 8 + (c - 48)) % 256 :: transformAux 0 0 rest
                                                           -- 31, FSM_ODIGIT, FSM_BASE8_OUTPUT, 0
      else                                                 -- 31, FSM_ANY, FSM_RETAIN, 0
        accum % 256 ::
          (if c = 92 then transformAux 1 0 rest else c % 256 :: transformAux 0 0 rest)
    else []
    -- unreachable for the state set {0,1,2,3,4,21,22,31}: every reachable
    -- state has an FSM_ANY row, so the C table scan always finds a row

/-- `transform_string`: run the escape FSM from the start state with a zero
accumulator. -/
def transform_string (s : List Nat) : List Nat := transformAux 0 0 s

/-- A catalog message, `_CAT_MESSAGE_T`. -/
structure Message where
  set_id : Nat
  msg_id : Nat
  msg : List Nat
  deriving DecidableEq, Inhabited, Repr

/-- A catalog, `_CAT_CATALOG_T`. -/
structure Catalog where
  is_opened : Bool
  msgs : List Message
  deriving DecidableEq, Inhabited, Repr

/-- `catmsg_cmp` specialised to a key `(ks, km)` compared against a table
element `m`, as `bsearch` calls it (first argument the key). -/
def cmpKey (ks km : Nat) (m : Message) : Ordering :=
  if ks ≠ m.set_id then (if ks < m.set_id then Ordering.lt else Ordering.gt)
  else if km ≠ m.msg_id then (if km < m.msg_id then Ordering.lt else Ordering.gt)
  else Ordering.eq

/-- The `(set_id, msg_id)` order induced by `catmsg_cmp` between two
messages. -/
def msgLe (a b : Message) : Bool :=
  decide (a.set_id < b.set_id) ||
    (decide (a.set_id = b.set_id) && decide (a.msg_id ≤ b.msg_id))

/-- Insertion into a `msgLe`-sorted list. -/
def insertMsg (m : Message) : List Message → List Message
  | [] => [m]
  | x :: xs => if msgLe m x then m :: x :: xs else x :: insertMsg m xs

/-- The `qsort` call at the end of `catread`, modelled as insertion sort.
`qsort` guarantees only a `catmsg_cmp`-sorted permutation (its order on
duplicate keys is unspecified); insertion sort is one such sort, and on the
duplicate-free key sets of the properties below the sorted result is
unique. -/
def sortMsgs (l : List Message) : List Message := l.foldr insertMsg []

/-- The C library `bsearch` over the sorted message table: classic halving
search probing the middle element.  The fuel is the list length, which
always suffices since each probe discards at least one element. -/
def bsearchAux (ks km : Nat) : Nat → List Message → Option Message
  | 0, _ => none
  | _ + 1, [] => none
  | fuel + 1, x :: xs =>
    let l := x :: xs
    let mid := l.length / 2
    let m := l.getD mid x
    match cmpKey ks km m with
    | Ordering.eq => some m
    | Ordering.lt => bsearchAux ks km fuel (l.take mid)
    | Ordering.gt => bsearchAux ks km fuel (l.drop (mid + 1))

def bsearchMsgs (ks km : Nat) (l : List Message) : Option Message :=
  bsearchAux ks km l.length l

/-- The whitespace set `" \t\f\v\r"` trimmed by `catread`. -/
def isWsB (c : Nat) : Bool := c = 32 || c = 9 || c = 12 || c = 11 || c = 13

/-- Leading/trailing-whitespace trim: the `DSfind_first_not_of` /
`DSremove` / `DSfind_last_not_of` / `DSresize` sequence in `catread`. -/
def trimWs (s : List Nat) : List Nat :=
  ((s.dropWhile isWsB).reverse.dropWhile isWsB).reverse

/-- Scan a run of leading decimal digits, returning the accumulated value
and the remainder (the id-parsing `for` loops of `catread`; reading past the
end of the line is modelled as hitting a non-digit byte). -/
def takeDigits : List Nat → Nat → Nat × List Nat
  | [], acc => (acc, [])
  | c :: rest, acc =>
    if isDigitB c then takeDigits rest (acc * 10 + (c - 48)) else (acc, c :: rest)

/-- Parse one trimmed, digit-led logical line: `set_id` digits, skip one
delimiter byte, `msg_id` digits, skip one delimiter byte, transform the
remaining value. -/
def parseMsgLine (s : List Nat) : Message :=
  let p1 := takeDigits s 0
  let r2 := p1.2.drop 1
  let p2 := takeDigits r2 0
  let r4 := p2.2.drop 1
  { set_id := p1.1, msg_id := p2.1, msg := transform_string r4 }

/-- Append a parsed message, allocating the catalog on first use (`cat`
stays the null pointer in `catread` until the first message line). -/
def appendMsg (cat : Option (List Message)) (m : Message) : Option (List Message) :=
  match cat with
  | none => some [m]
  | some ms => some (ms ++ [m])

/-- One pass of the body of `catread`'s line loop on the accumulated string
`s0` (ending with the newline `fgets` kept, except at end of file): strip
the final byte, trim whitespace, then either keep the line pending as a
continuation (trailing backslash removed) or, when it starts with a digit,
parse it as a message line.  Returns the new pending string and message
accumulator. -/
def lineStep (s0 : List Nat) (cat : Option (List Message)) :
    List Nat × Option (List Message) :=
  let s2 := trimWs s0.dropLast
  if s2.getLast? = some 92 then (s2.dropLast, cat)
  else
    match s2 with
    | c :: _ =>
      (([] : List Nat), if isDigitB c then appendMsg cat (parseMsgLine s2) else cat)
    | [] => ([], cat)

/-- The line loop of `catread` over the file's physical lines (each the byte
list `fgets` returns, trailing newline included), threading the pending
continuation string. -/
def catreadLines : List (List Nat) → List Nat → Option (List Message) →
    List Nat × Option (List Message)
  | [], s, cat => (s, cat)
  | line :: rest, s, cat =>
    let p := lineStep (s ++ line) cat
    catreadLines rest p.1 p.2

/-- At end of file `append_from_file` hands back the pending string
unchanged and `catread`'s loop keeps running while it is nonempty; each pass
strips at least the final byte, so `s.length` passes always suffice for the
fuel it is called with. -/
def drainPending : Nat → List Nat → Option (List Message) → Option (List Message)
  | 0, _, cat => cat
  | _ + 1, [], cat => cat
  | fuel + 1, s, cat =>
    let p := lineStep s cat
    drainPending fuel p.1 p.2

/-- `catread` on the physical lines of an already-opened file: the line
loop, the end-of-file passes, then the `qsort`.  Returns `none` when no
message line was ever seen: `cat` is then still the null pointer and the C
code's final `qsort (_CATMSG_base (cat->msgs), ...)` dereferences it — no
valid catalog is produced (a caller checking the return value would see
failure). -/
def catread_lines (lines : List (List Nat)) : Option Catalog :=
  let p := catreadLines lines [] none
  match drainPending p.1.length p.1 p.2 with
  | none => none
  | some msgs => some { is_opened := false, msgs := sortMsgs msgs }

/-- A file system: paths mapped to the physical lines `fgets` would return.
`fopen` failure is absence from the list. -/
abbrev FileSys := List (List Nat × List (List Nat))

def fsLookup : FileSys → List Nat → Option (List (List Nat))
  | [], _ => none
  | (p, ls) :: rest, name => if p = name then some ls else fsLookup rest name

/-- `catread`: `fopen` then parse; `none` if the file cannot be opened or no
message line is found. -/
def catread (fs : FileSys) (name : List Nat) : Option Catalog :=
  match fsLookup fs name with
  | none => none
  | some lines => catread_lines lines

/-- The registry `theCatalogues`: `none` while it was never allocated. -/
abbrev RegState := Option (List Catalog)

/-- The first-fit scan of `install_catalog`: index of the first slot whose
`is_opened` flag is false, or the length when every slot is open. -/
def firstFree : List Catalog → Nat
  | [] => 0
  | c :: rest => if c.is_opened then firstFree rest + 1 else 0

/-- Modelled from the spec: the dynamic-array `_CATCAT_put_at` helper lives
in `dynarray.h`, which is not among the verified sources; per the spec's
registry contract ("finds the first slot with `is_open == false` ...; if
none exists, appends a new slot") it stores at an existing index and appends
when the index equals the length. -/
def putAt (l : List Catalog) (i : Nat) (c : Catalog) : List Catalog :=
  if i < l.length then l.set i c else l ++ [c]

/-- `install_catalog`: mark the catalog open; on the very first install
allocate the registry holding it as slot 0; otherwise store it at the first
free slot. -/
def install_catalog (cat : Catalog) (st : RegState) : Nat × RegState :=
  let cat' := { cat with is_opened := true }
  match st with
  | none => (0, some [cat'])
  | some slots => (firstFree slots, some (putAt slots (firstFree slots) cat'))

/-- The environment variables `catopen` consults. -/
structure Env where
  nlspath : Option (List Nat)
  lc_all : Option (List Nat)
  lc_messages : Option (List Nat)
  lang : Option (List Nat)
  deriving DecidableEq

/-- `NLS_DEFAULT_PATH`. -/
def NLS_DEFAULT_PATH : List Nat :=
  bytes "/usr/share/nls/%L/%N.cat;/usr/share/nls/%l.%c/%N.cat;/usr/share/nls/%l/%N.cat"

/-- `NLS_DEFAULT_LANG`. -/
def NLS_DEFAULT_LANG : List Nat := bytes "C"

/-- The locale-resolution block of `catopen`: with `NL_CAT_LOCALE` set try
`LC_ALL` then `LC_MESSAGES`; fall back to `LANG`; an unset result or the
exact value `"POSIX"` collapses to the default locale. -/
def resolve_lang (nl_cat_locale : Bool) (e : Env) : List Nat :=
  let l1 : Option (List Nat) :=
    if nl_cat_locale then
      match e.lc_all with
      | some v => some v
      | none => e.lc_messages
    else none
  let l2 := match l1 with
    | some v => some v
    | none => e.lang
  match l2 with
  | none => NLS_DEFAULT_LANG
  | some v => if v = bytes "POSIX" then NLS_DEFAULT_LANG else v

/-- Index of the last occurrence of `c` (`strrchr`). -/
def lastIdxOf (c : Nat) (l : List Nat) : Option Nat :=
  match l.reverse.findIdx? (fun x => x = c) with
  | none => none
  | some r => some (l.length - 1 - r)

/-- The locale pieces computed by `catopen` before the segment loop: `sep`
is the first `_` (`strchr`), `dot` the last `.` (`strrchr`), a dot before
the separator is discarded, and a locale without a surviving dot is replaced
wholesale by the default locale (`lang = NLS_DEFAULT_LANG`).  The
replacement happens before any `%` expansion, so it affects `%L` too, while
`sep` and `dot` keep pointing into the original locale string. -/
structure LocaleParts where
  lang0 : List Nat
  langEff : List Nat
  sep : Option Nat
  dot : Option Nat
  deriving DecidableEq

def splitLocale (lang0 : List Nat) : LocaleParts :=
  let sep := lang0.findIdx? (fun x => x = 95)
  let dot0 := lastIdxOf 46 lang0
  let dot := match dot0, sep with
    | some d, some s2 => if d < s2 then none else some d
    | _, _ => dot0
  { lang0 := lang0
    langEff := if dot = none then NLS_DEFAULT_LANG else lang0
    sep := sep
    dot := dot }

def stops : Option Nat → Nat → Bool
  | none, _ => false
  | some s2, u => decide (s2 ≤ u)

/-- The `%l`/`%t` copy loop: append the byte at index `u`, then stop once
the next index reaches a stop mark.  The C code compares pointers
(`u >= sep`, `u >= dot`), modelled here as index comparisons; when the
locale was replaced by the one-byte default `"C"` those C comparisons relate
pointers into unrelated strings, but every outcome yields the same output,
since the loop then ends at the string's end right after the first byte. -/
def copyUpTo : Option Nat → Option Nat → List Nat → Nat → List Nat
  | _, _, [], _ => []
  | sep, dot, c :: rest, u =>
    c :: (if stops sep (u + 1) || stops dot (u + 1) then []
          else copyUpTo sep dot rest (u + 1))

/-- Expansion of one `%` conversion (the `switch (*(++s))` of `catopen`). -/
def pexp (parts : LocaleParts) (name : List Nat) (k : Nat) : List Nat :=
  if k = 76 then parts.langEff                                        -- %L
  else if k = 78 then name                                            -- %N
  else if k = 108 then copyUpTo parts.sep parts.dot parts.langEff 0   -- %l
  else if k = 116 then                                                -- %t
    match parts.sep with
    | none => []
    | some si => copyUpTo none parts.dot (parts.lang0.drop (si + 1)) (si + 1)
  else if k = 99 then                                                 -- %c
    match parts.dot with
    | none => []
    | some di => parts.lang0.drop (di + 1)
  else [k]                                                            -- literal

/-- The segment walk of `catopen`: expand `%` conversions, emit one
candidate per `;`-separated segment, in template order (a trailing `;`
emits no empty final candidate, and a `%`-escaped `;` stays inside its
segment).  A `%` as the template's final byte makes the C code read the
terminating NUL and walk past the string; it is modelled as ending the
segment. -/
def expandAll (parts : LocaleParts) (name : List Nat) :
    List Nat → List Nat → List (List Nat)
  | [], acc => [acc]
  | c :: rest, acc =>
    if c = 59 then
      if rest = [] then [acc] else acc :: expandAll parts name rest []
    else if c = 37 then
      match rest with
      | [] => [acc]
      | k :: rest' => expandAll parts name rest' (acc ++ pexp parts name k)
    else expandAll parts name rest (acc ++ [c])

/-- All candidate paths `catopen` tries for a template, locale and name. -/
def makeCandidates (tmpl lang0 name : List Nat) : List (List Nat) :=
  expandAll (splitLocale lang0) name tmpl []

inductive CatErr where
  | EBADF
  | ENOMSG
  deriving DecidableEq, Repr

/-- Try each candidate path in order and install the first catalog that
reads successfully.  (The C `do ... while (*s)` interleaves expansion and
`catread`; expansion does not depend on the reads, so the candidate list is
computed first.) -/
def tryCands (fs : FileSys) : List (List Nat) → RegState → Option Nat × RegState
  | [], st => (none, st)
  | p :: ps, st =>
    match catread fs p with
    | some cat =>
      let r := install_catalog cat st
      (some r.1, r.2)
    | none => tryCands fs ps st

/-- `catopen`; failure is `none` (the C sentinel `(nl_catd) (-1)`, also
covering the null/empty `name` check).  A name containing `\`, `/` or `:`
(`strpbrk (name, "\\/:")`) is read directly; otherwise the `NLSPATH`
template (or the built-in default) is expanded against the resolved locale
and each candidate is tried in order. -/
def catopen (fs : FileSys) (e : Env) (name : List Nat) (nl_cat_locale : Bool)
    (st : RegState) : Option Nat × RegState :=
  if name = [] then (none, st)
  else if name.any (fun c => c = 92 || c = 47 || c = 58) then
    match catread fs name with
    | some cat =>
      let r := install_catalog cat st
      (some r.1, r.2)
    | none => (none, st)
  else
    let tmpl := match e.nlspath with
      | some v => v
      | none => NLS_DEFAULT_PATH
    tryCands fs (makeCandidates tmpl (resolve_lang nl_cat_locale e) name) st

/-- `catgets`: the default with `EBADF` when the registry does not exist,
the descriptor is out of range or the slot is closed; otherwise
binary-search the sorted table, returning the stored text, or the default
with `ENOMSG` on a miss.  The registry state after the call is returned
explicitly, branch by branch, mirroring the C function (which contains no
store to `theCatalogues`). -/
def catgetsFn (st : RegState) (catd : Nat) (set_id msg_id : Nat) (s : List Nat) :
    (List Nat × Option CatErr) × RegState :=
  match st with
  | none => ((s, some CatErr.EBADF), none)
  | some slots =>
    if slots.length ≤ catd then ((s, some CatErr.EBADF), some slots)
    else if (slots.getD catd default).is_opened = false then
      ((s, some CatErr.EBADF), some slots)
    else
      match bsearchMsgs set_id msg_id (slots.getD catd default).msgs with
      | none => ((s, some CatErr.ENOMSG), some slots)
      | some m => ((m.msg, none), some slots)

/-- `catclose`: `-1` on an invalid descriptor; on success mark the slot
closed and reset its message list to empty
(`_CATMSG_resize (cat->msgs, 0, 0)`), keeping the slot in place. -/
def catcloseFn (catd : Nat) (st : RegState) : Int × RegState :=
  match st with
  | none => (-1, none)
  | some slots =>
    if slots.length ≤ catd then (-1, some slots)
    else if (slots.getD catd default).is_opened = false then (-1, some slots)
    else (0, some (slots.set catd { is_opened := false, msgs := [] }))

/-- The catalog file of the end-to-end scenario: contents exactly
`1 1 Hello\n2 3 World\n`, reachable under a direct (separator-containing)
path. -/
def c1_fs : FileSys :=
  [(bytes "/tmp/x.cat", [bytes "1 1 Hello" ++ [10], bytes "2 3 World" ++ [10]])]

def c1_env : Env := { nlspath := none, lc_all := none, lc_messages := none, lang := none }

/-- Registry state right after the end-to-end open. -/
def c1_st1 : RegState :=
  some [{ is_opened := true,
          msgs := [{ set_id := 1, msg_id := 1, msg := bytes "Hello" },
                   { set_id := 2, msg_id := 3, msg := bytes "World" }] }]

/-- Registry state after closing descriptor 0: slot kept, closed, table
emptied. -/
def c1_st2 : RegState := some [{ is_opened := false, msgs := [] }]

/-- A file system holding an empty (zero-byte) catalog file. -/
def c8_fs : FileSys := [(bytes "/tmp/empty.cat", [])]

/-- Registry with slot 0 open and slot 1 free (first-fit witness input). -/
def c7slots : List Catalog :=
  [{ is_opened := true, msgs := [] }, { is_opened := false, msgs := [] }]

def c7cat : Catalog :=
  { is_opened := false, msgs := [{ set_id := 1, msg_id := 1, msg := [65] }] }

/-- The state-0 row of the FSM table: a non-NUL character is either the
escape introducer (suppressed, to state 1 with the accumulator cleared by
`FSM_SUPPRESS`) or output literally.  This is the step a retained
(re-processed) character takes, certifying the retain-site inlining in
`transformAux`. -/
theorem transformAux_state0 (c : Nat) (rest : List Nat) (hc : c ≠ 0) :
    transformAux 0 0 (c :: rest)
      = if c = 92 then transformAux 1 0 rest else c % 256 :: transformAux 0 0 rest := by
  simp [transformAux, hc]

/-- Row `0, '\\', FSM_SUPPRESS, 1`. -/
theorem transformAux_bs (a : Nat) (l : List Nat) :
    transformAux 0 a (92 :: l) = transformAux 1 0 l := by
  simp [transformAux]

/-- Row `1, FSM_ODIGIT, FSM_BASE8, 3`. -/
theorem transformAux_s1_odigit (d a : Nat) (hd : isODigitB d = true) (l : List Nat) :
    transformAux 1 a (d :: l) = transformAux 3 (a * 8 + (d - 48)) l := by
  have h : 48 ≤ d ∧ d ≤ 55 := by simpa [isODigitB] using hd
  obtain ⟨h1, h2⟩ := h
  simp [transformAux, hd, show d ≠ 0 by omega, show d ≠ 98 by omega,
    show d ≠ 101 by omega, show d ≠ 102 by omega, show d ≠ 110 by omega,
    show d ≠ 114 by omega, show d ≠ 116 by omega, show d ≠ 118 by omega,
    show d ≠ 92 by omega, show d ≠ 100 by omega]

/-- Row `1, 'd', FSM_SUPPRESS, 2`. -/
theorem transformAux_s1_d (a : Nat) (l : List Nat) :
    transformAux 1 a (100 :: l) = transformAux 2 0 l := by
  simp [transformAux]

/-- Row `2, FSM_DIGIT, FSM_BASE10, 21`. -/
theorem transformAux_s2_digit (d a : Nat) (hd : isDigitB d = true) (l : List Nat) :
    transformAux 2 a (d :: l) = transformAux 21 (a * 10 + (d - 48)) l := by
  have h : 48 ≤ d ∧ d ≤ 57 := by simpa [isDigitB] using hd
  simp [transformAux, hd, show d ≠ 0 by omega]

/-- Row `2, FSM_ANY, FSM_RETAIN, 0`. -/
theorem transformAux_s2_retain (t a : Nat) (ht : isDigitB t = false) (h0 : t ≠ 0)
    (l : List Nat) :
    transformAux 2 a (t :: l) = a % 256 :: transformAux 0 0 (t :: l) := by
  rw [transformAux_state0 t l h0]
  simp [transformAux, h0, ht]

/-- Row `3, FSM_ODIGIT, FSM_BASE8, 31`. -/
theorem transformAux_s3_odigit (d a : Nat) (hd : isODigitB d = true) (l : List Nat) :
    transformAux 3 a (d :: l) = transformAux 31 (a * 8 + (d - 48)) l := by
  have h : 48 ≤ d ∧ d ≤ 55 := by simpa [isODigitB] using hd
  simp [transformAux, hd, show d ≠ 0 by omega]

/-- Row `3, FSM_ANY, FSM_RETAIN, 0`. -/
theorem transformAux_s3_retain (t a : Nat) (ht : isODigitB t = false) (h0 : t ≠ 0)
    (l : List Nat) :
    transformAux 3 a (t :: l) = a % 256 :: transformAux 0 0 (t :: l) := by
  rw [transformAux_state0 t l h0]
  simp [transformAux, h0, ht]

/-- Row `21, FSM_DIGIT, FSM_BASE10, 22`. -/
theorem transformAux_s21_digit (d a : Nat) (hd : isDigitB d = true) (l : List Nat) :
    transformAux 21 a (d :: l) = transformAux 22 (a * 10 + (d - 48)) l := by
  have h : 48 ≤ d ∧ d ≤ 57 := by simpa [isDigitB] using hd
  simp [transformAux, hd, show d ≠ 0 by omega]

/-- Row `21, FSM_ANY, FSM_RETAIN, 0`. -/
theorem transformAux_s21_retain (t a : Nat) (ht : isDigitB t = false) (h0 : t ≠ 0)
    (l : List Nat) :
    transformAux 21 a (t :: l) = a % 256 :: transformAux 0 0 (t :: l) := by
  rw [transformAux_state0 t l h0]
  simp [transformAux, h0, ht]

/-- Row `22, FSM_DIGIT, FSM_BASE10_OUTPUT, 0`. -/
theorem transformAux_s22_digit (d a : Nat) (hd : isDigitB d = true) (l : List Nat) :
    transformAux 22 a (d :: l) = (a * 10 + (d - 48)) % 256 :: transformAux 0 0 l := by
  have h : 48 ≤ d ∧ d ≤ 57 := by simpa [isDigitB] using hd
  simp [transformAux, hd, show d ≠ 0 by omega]

/-- Row `22, FSM_ANY, FSM_RETAIN, 0`. -/
theorem transformAux_s22_retain (t a : Nat) (ht : isDigitB t = false) (h0 : t ≠ 0)
    (l : List Nat) :
    transformAux 22 a (t :: l) = a % 256 :: transformAux 0 0 (t :: l) := by
  rw [transformAux_state0 t l h0]
  simp [transformAux, h0, ht]

/-- Row `31, FSM_ODIGIT, FSM_BASE8_OUTPUT, 0`. -/
theorem transformAux_s31_odigit (d a : Nat) (hd : isODigitB d = true) (l : List Nat) :
    transformAux 31 a (d :: l) = (a * 8 + (d - 48)) % 256 :: transformAux 0 0 l := by
  have h : 48 ≤ d ∧ d ≤ 55 := by simpa [isODigitB] using hd
  simp [transformAux, hd, show d ≠ 0 by omega]

/-- Row `31, FSM_ANY, FSM_RETAIN, 0`. -/
theorem transformAux_s31_retain (t a : Nat) (ht : isODigitB t = false) (h0 : t ≠ 0)
    (l : List Nat) :
    transformAux 31 a (t :: l) = a % 256 :: transformAux 0 0 (t :: l) := by
  rw [transformAux_state0 t l h0]
  simp [transformAux, h0, ht]

/-- Claim C1: for a catalog file whose contents are exactly the two lines
`1 1 Hello` and `2 3 World`, opening it and calling get on the returned
descriptor with `(1,1)` returns `"Hello"`, `(2,3)` returns `"World"`,
`(9,9)` returns the caller-supplied default; after closing the descriptor a
further get returns the default and signals the `EBADF`-class
invalid-descriptor error. -/
theorem c1_end_to_end :
    catopen c1_fs c1_env (bytes "/tmp/x.cat") false none = (some 0, c1_st1)
    ∧ catgetsFn c1_st1 0 1 1 (bytes "DEF") = ((bytes "Hello", none), c1_st1)
    ∧ catgetsFn c1_st1 0 2 3 (bytes "DEF") = ((bytes "World", none), c1_st1)
    ∧ catgetsFn c1_st1 0 9 9 (bytes "DEF") = ((bytes "DEF", some CatErr.ENOMSG), c1_st1)
    ∧ catcloseFn 0 c1_st1 = (0, c1_st2)
    ∧ catgetsFn c1_st2 0 1 1 (bytes "DEF") = ((bytes "DEF", some CatErr.EBADF), c1_st2) := by
  refine ⟨?_, ?_, ?_, ?_, ?_, ?_⟩ <;> decide

/-- Claim C2 counterexample: the claim asserts that a trailing unterminated
escape emits the accumulated value, and in particular that transforming the
4-byte input `"\x41"` yields `"A"`; in fact the FSM loop ends at end of
input with the accumulator dropped, so the result is the empty string. -/
theorem c2_counterexample :
    transform_string (bytes "\\x41") = [] ∧ ([] : List Nat) ≠ [65] := by decide

/-- Claim C2 (amended): the transformer processes its whole input, but a
trailing unterminated escape's accumulated value is dropped, not emitted;
the round-trip vectors hold in their terminated forms: `"a\nb"` (backslash
escaped) yields the bytes `a`, newline, `b`; `"\101"` yields `A` (emitted
directly on the third octal digit); `"\x41"` followed by a non-hex
terminator yields `A` and the reprocessed terminator, while bare `"\x41"`
at end of input yields the empty string; the decimal escape `"\d65"`
followed by a non-digit terminator emits byte 65 (`A`) with exactly two
digits read, while bare `"\d65"` at end of input yields the empty string. -/
theorem c2_amended :
    transform_string (bytes "a\\nb") = [97, 10, 98]
    ∧ transform_string (bytes "\\101") = [65]
    ∧ transform_string (bytes "\\x41Z") = [65, 90]
    ∧ transform_string (bytes "\\x41") = []
    ∧ transform_string (bytes "\\d65Z") = [65, 90]
    ∧ transform_string (bytes "\\d65") = [] := by decide

/-- Claim C3 counterexample: the claim asserts that `\d` followed by octal
digits accumulates them base-8, which at input `"\d77Z"` would emit byte
0o77 = 63; the FSM's state 2 instead matches `FSM_DIGIT`/`FSM_BASE10`, so
the digits accumulate base-10 and byte 77 is emitted. -/
theorem c3_counterexample :
    transform_string (bytes "\\d77Z") = [77, 90]
    ∧ transform_string (bytes "\\d77Z") ≠ [63, 90] := by decide

/-- Claim C3 (amended): `\d` followed by one or more decimal digits
accumulates a base-10 value, emitted when a non-digit `u` terminates the
run (the terminator re-processed, not consumed) or immediately upon the
third digit; a leading octal digit directly after a backslash (no `\d`
prefix) starts an octal escape whose digits accumulate base-8 and are
emitted when any non-octal-digit `t` (including the decimal digits `8`/`9`)
terminates the run (terminator re-processed) or immediately upon the third
octal digit; at end of input a pending accumulator is dropped, nothing
being emitted for the unterminated escape. -/
theorem c3_amended (d1 d2 d3 e1 e2 e3 t u : Nat) (rest : List Nat)
    (hd1 : isODigitB d1 = true) (hd2 : isODigitB d2 = true) (hd3 : isODigitB d3 = true)
    (he1 : isDigitB e1 = true) (he2 : isDigitB e2 = true) (he3 : isDigitB e3 = true)
    (ht : isODigitB t = false) (ht0 : t ≠ 0)
    (hu : isDigitB u = false) (hu0 : u ≠ 0) :
    transform_string (92 :: d1 :: t :: rest)
        = (d1 - 48) % 256 :: transform_string (t :: rest)
    ∧ transform_string (92 :: d1 :: d2 :: t :: rest)
        = ((d1 - 48) * 8 + (d2 - 48)) % 256 :: transform_string (t :: rest)
    ∧ transform_string (92 :: d1 :: d2 :: d3 :: rest)
        = (((d1 - 48) * 8 + (d2 - 48)) * 8 + (d3 - 48)) % 256 :: transform_string rest
    ∧ transform_string (92 :: 100 :: e1 :: u :: rest)
        = (e1 - 48) % 256 :: transform_string (u :: rest)
    ∧ transform_string (92 :: 100 :: e1 :: e2 :: u :: rest)
        = ((e1 - 48) * 10 + (e2 - 48)) % 256 :: transform_string (u :: rest)
    ∧ transform_string (92 :: 100 :: e1 :: e2 :: e3 :: rest)
        = (((e1 - 48) * 10 + (e2 - 48)) * 10 + (e3 - 48)) % 256 :: transform_string rest
    ∧ transform_string (92 :: d1 :: []) = []
    ∧ transform_string (92 :: d1 :: d2 :: []) = []
    ∧ transform_string (92 :: 100 :: e1 :: []) = []
    ∧ transform_string (92 :: 100 :: e1 :: e2 :: []) = [] := by
  refine ⟨?_, ?_, ?_, ?_, ?_, ?_, ?_, ?_, ?_, ?_⟩
  · unfold transform_string
    rw [transformAux_bs, transformAux_s1_odigit d1 0 hd1, transformAux_s3_retain t _ ht ht0]
    simp
  · unfold transform_string
    rw [transformAux_bs, transformAux_s1_odigit d1 0 hd1, transformAux_s3_odigit d2 _ hd2,
      transformAux_s31_retain t _ ht ht0]
    simp
  · unfold transform_string
    rw [transformAux_bs, transformAux_s1_odigit d1 0 hd1, transformAux_s3_odigit d2 _ hd2,
      transformAux_s31_odigit d3 _ hd3]
    simp
  · unfold transform_string
    rw [transformAux_bs, transformAux_s1_d, transformAux_s2_digit e1 0 he1,
      transformAux_s21_retain u _ hu hu0]
    simp
  · unfold transform_string
    rw [transformAux_bs, transformAux_s1_d, transformAux_s2_digit e1 0 he1,
      transformAux_s21_digit e2 _ he2, transformAux_s22_retain u _ hu hu0]
    simp
  · unfold transform_string
    rw [transformAux_bs, transformAux_s1_d, transformAux_s2_digit e1 0 he1,
      transformAux_s21_digit e2 _ he2, transformAux_s22_digit e3 _ he3]
    simp
  · unfold transform_string
    rw [transformAux_bs, transformAux_s1_odigit d1 0 hd1]
    rfl
  · unfold transform_string
    rw [transformAux_bs, transformAux_s1_odigit d1 0 hd1, transformAux_s3_odigit d2 _ hd2]
    rfl
  · unfold transform_string
    rw [transformAux_bs, transformAux_s1_d, transformAux_s2_digit e1 0 he1]
    rfl
  · unfold transform_string
    rw [transformAux_bs, transformAux_s1_d, transformAux_s2_digit e1 0 he1,
      transformAux_s21_digit e2 _ he2]
    rfl

/-- Witness for `c3_amended` at octal digits `d = 55` with the non-octal
decimal-digit terminator `8` (56), decimal digits `e = 54/53/52` with
terminator `Z` (90), plus an end-of-input drop instance. -/
theorem c3_amended_witness :
    transform_string (92 :: 55 :: 55 :: 56 :: []) = 63 % 256 :: transform_string (56 :: [])
    ∧ transform_string (92 :: 100 :: 54 :: 53 :: 90 :: [])
        = 65 % 256 :: transform_string (90 :: [])
    ∧ transform_string (92 :: 55 :: []) = [] := by
  have h := c3_amended 55 55 55 54 53 52 56 90 [] (by decide) (by decide) (by decide)
    (by decide) (by decide) (by decide) (by decide) (by decide) (by decide) (by decide)
  exact ⟨h.2.1, h.2.2.2.2.1, h.2.2.2.2.2.2.1⟩

/-- Claim C4: on the locale-resolution path of `catopen` (names without a
path separator), the `NL_CAT_LOCALE`-style flag selects `LC_ALL`, then
`LC_MESSAGES`, then `LANG`, in that priority order; with the flag absent
only `LANG` is consulted; an unset locale or one equal to `"POSIX"`
collapses to the default locale `"C"`. -/
theorem c4_locale_priority :
    (∀ n a m g, resolve_lang true ⟨n, some a, m, g⟩
        = (if a = bytes "POSIX" then bytes "C" else a))
    ∧ (∀ n m g, resolve_lang true ⟨n, none, some m, g⟩
        = (if m = bytes "POSIX" then bytes "C" else m))
    ∧ (∀ n g, resolve_lang true ⟨n, none, none, g⟩ = resolve_lang false ⟨n, none, none, g⟩)
    ∧ (∀ n a m g, resolve_lang false ⟨n, a, m, g⟩ = resolve_lang false ⟨n, none, none, g⟩)
    ∧ (∀ n g, resolve_lang false ⟨n, none, none, some g⟩
        = (if g = bytes "POSIX" then bytes "C" else g))
    ∧ (∀ n a m, resolve_lang true ⟨n, none, none, none⟩ = bytes "C"
        ∧ resolve_lang false ⟨n, a, m, none⟩ = bytes "C") := by
  refine ⟨?_, ?_, ?_, ?_, ?_, ?_⟩ <;>
    intros <;> simp [resolve_lang, NLS_DEFAULT_LANG]

/-- Claim C5 counterexample: for the non-empty, non-`"POSIX"` locale
`"fr_FR"` (which has no codeset component) the template `"%L"` expands to
`"C"`, not to the full locale string: `catopen` replaces `lang` wholesale by
the default before any `%` expansion, so the no-codeset fall-back hits `%L`
too, refuting "the fall-back ... applies only to the `%l`/`%t`/`%c`
sub-part markers, not to `%L`". -/
theorem c5_counterexample :
    makeCandidates (bytes "%L") (bytes "fr_FR") (bytes "prog") = [bytes "C"]
    ∧ bytes "fr_FR" ≠ [] ∧ bytes "fr_FR" ≠ bytes "POSIX"
    ∧ bytes "C" ≠ bytes "fr_FR" := by decide

/-- Claim C5 (amended): `%L` expands to the full locale string only when the
locale has a codeset component (a `.` not discarded for preceding the first
`_`); when the codeset is absent the fall-back to the default locale applies
to `%L` as well, which then expands to `"C"`. -/
theorem c5_amended :
    ∀ lang0 name : List Nat,
      makeCandidates (bytes "%L") lang0 name = [(splitLocale lang0).langEff]
      ∧ (splitLocale lang0).langEff
          = (if (splitLocale lang0).dot = none then bytes "C" else lang0) := by
  intro lang0 name
  exact ⟨rfl, by simp [splitLocale, NLS_DEFAULT_LANG]⟩

/-- Claim C6: for template `"/x/%L/%N.cat;/y/%l/%N.cat"`, locale
`"fr_FR.UTF-8"` and name `"prog"`, the candidate paths tried are exactly
`"/x/fr_FR.UTF-8/prog.cat"` then `"/y/fr/prog.cat"`, in that order — both
as the expanded candidate list and as what `catopen` hands, in order, to
the read-and-install loop. -/
theorem c6_path_expansion :
    makeCandidates (bytes "/x/%L/%N.cat;/y/%l/%N.cat") (bytes "fr_FR.UTF-8") (bytes "prog")
        = [bytes "/x/fr_FR.UTF-8/prog.cat", bytes "/y/fr/prog.cat"]
    ∧ ∀ (fs : FileSys) (st : RegState),
        catopen fs ⟨some (bytes "/x/%L/%N.cat;/y/%l/%N.cat"), none, none,
            some (bytes "fr_FR.UTF-8")⟩ (bytes "prog") false st
          = tryCands fs [bytes "/x/fr_FR.UTF-8/prog.cat", bytes "/y/fr/prog.cat"] st := by
  exact ⟨by decide, fun fs st => rfl⟩

/-- Claim C8: the claim says an empty file parses to an empty, valid
catalog; in fact with no message lines `catread`'s `cat` is still the null
pointer when the final `qsort (_CATMSG_base (cat->msgs), ...)` runs (a null
dereference), and no valid catalog results — `catopen` on such a file
fails, leaving the registry untouched. -/
theorem c8_empty_file :
    catread_lines [] = none
    ∧ catopen c8_fs ⟨none, none, none, none⟩ (bytes "/tmp/empty.cat") false none
        = (none, none) := by decide

theorem getD_set_self (l : List Catalog) (i : Nat) (c : Catalog) (h : i < l.length) :
    (l.set i c).getD i default = c := by
  induction l generalizing i with
  | nil => simp at h
  | cons x xs ih =>
    cases i with
    | zero => simp
    | succ i => simpa using ih i (by simpa using h)

theorem getD_set_ne (l : List Catalog) (i j : Nat) (c : Catalog) (h : j ≠ i) :
    (l.set i c).getD j default = l.getD j default := by
  induction l generalizing i j with
  | nil => simp
  | cons x xs ih =>
    cases i with
    | zero =>
      cases j with
      | zero => exact absurd rfl h
      | succ j => simp
    | succ i =>
      cases j with
      | zero => simp
      | succ j => simpa using ih i j (by omega)

theorem getD_append_lt (l : List Catalog) (c : Catalog) (j : Nat) (h : j < l.length) :
    (l ++ [c]).getD j default = l.getD j default := by
  induction l generalizing j with
  | nil => simp at h
  | cons x xs ih =>
    cases j with
    | zero => simp
    | succ j => simpa using ih j (by simpa using h)

theorem getD_append_len (l : List Catalog) (c : Catalog) :
    (l ++ [c]).getD l.length default = c := by
  induction l with
  | nil => simp
  | cons x xs ih => simpa using ih

theorem firstFree_le_length (l : List Catalog) : firstFree l ≤ l.length := by
  induction l with
  | nil => simp [firstFree]
  | cons c rest ih =>
    by_cases hc : c.is_opened <;> simp [firstFree, hc] <;> omega

/-- Every slot strictly before the first-fit index is open. -/
theorem firstFree_lt_opened (l : List Catalog) :
    ∀ j, j < firstFree l → (l.getD j default).is_opened = true := by
  induction l with
  | nil => intro j h; simp [firstFree] at h
  | cons c rest ih =>
    intro j h
    by_cases hc : c.is_opened
    · cases j with
      | zero => simpa using hc
      | succ j =>
        simp only [firstFree, if_pos hc] at h
        simpa using ih j (by omega)
    · simp [firstFree, hc] at h

/-- When the first-fit index is in range, the slot there is closed. -/
theorem firstFree_not_opened (l : List Catalog) :
    firstFree l < l.length → (l.getD (firstFree l) default).is_opened = false := by
  induction l with
  | nil => intro h; simp [firstFree] at h
  | cons c rest ih =>
    intro h
    by_cases hc : c.is_opened
    · simp only [firstFree, if_pos hc] at h ⊢
      simpa using ih (by simpa using Nat.lt_of_succ_lt_succ h)
    · have hc' : c.is_opened = false := by simpa using hc
      simp [firstFree, hc']

/-- Characterisation: the first-fit index is the unique `i` whose prefix is
all open and which is either the length or a closed slot. -/
theorem firstFree_eq_of (l : List Catalog) :
    ∀ i, (∀ j, j < i → (l.getD j default).is_opened = true) →
      (i = l.length ∨ (i < l.length ∧ (l.getD i default).is_opened = false)) →
      firstFree l = i := by
  induction l with
  | nil =>
    intro i _ hi
    rcases hi with h | h
    · simp [firstFree, h]
    · exact absurd h.1 (by simp)
  | cons c rest ih =>
    intro i hall hi
    cases i with
    | zero =>
      rcases hi with h | h
      · exact absurd h (by simp)
      · have hc : c.is_opened = false := by simpa using h.2
        simp [firstFree, hc]
    | succ i =>
      have hc : c.is_opened = true := by simpa using hall 0 (by omega)
      have hrest : firstFree rest = i := by
        refine ih i (fun j hj => by simpa using hall (j + 1) (by omega)) ?_
        rcases hi with h | h
        · left; simpa using h
        · right; exact ⟨by simpa using h.1, by simpa using h.2⟩
      simp [firstFree, hc, hrest]

/-- Open A, close A's descriptor, open B: B gets A's former descriptor. -/
theorem install_close_install (c1 c2 : Catalog) (st : RegState) :
    (install_catalog c2
        (catcloseFn (install_catalog c1 st).1 (install_catalog c1 st).2).2).1
      = (install_catalog c1 st).1 := by
  cases st with
  | none =>
    show (install_catalog c2
        (catcloseFn 0 (some [{ c1 with is_opened := true }])).2).1 = 0
    simp [catcloseFn, install_catalog, firstFree]
  | some slots =>
    have hle := firstFree_le_length slots
    have hlen : firstFree slots < (putAt slots (firstFree slots)
        { c1 with is_opened := true }).length := by
      by_cases hlt : firstFree slots < slots.length
      · simpa [putAt, hlt] using hlt
      · simp only [putAt, if_neg hlt, List.length_append, List.length_cons,
          List.length_nil]
        omega
    have hopen : ((putAt slots (firstFree slots) { c1 with is_opened := true }).getD
        (firstFree slots) default).is_opened = true := by
      by_cases hlt : firstFree slots < slots.length
      · rw [putAt, if_pos hlt, getD_set_self _ _ _ hlt]
      · have heq : firstFree slots = slots.length := by omega
        rw [putAt, if_neg hlt, heq, getD_append_len]
    show (install_catalog c2 (catcloseFn (firstFree slots)
        (some (putAt slots (firstFree slots) { c1 with is_opened := true }))).2).1
      = firstFree slots
    rw [show (catcloseFn (firstFree slots)
        (some (putAt slots (firstFree slots) { c1 with is_opened := true }))).2
      = some ((putAt slots (firstFree slots) { c1 with is_opened := true }).set
          (firstFree slots) { is_opened := false, msgs := [] }) by
      simp only [catcloseFn]
      rw [if_neg (Nat.not_le.mpr hlen),
        if_neg (fun hf => by rw [hopen] at hf; exact Bool.noConfusion hf)]]
    show firstFree ((putAt slots (firstFree slots) { c1 with is_opened := true }).set
        (firstFree slots) { is_opened := false, msgs := [] }) = firstFree slots
    refine firstFree_eq_of _ _ (fun j hj => ?_) (Or.inr ⟨by simpa using hlen, ?_⟩)
    · rw [getD_set_ne _ _ _ _ (by omega)]
      by_cases hlt : firstFree slots < slots.length
      · rw [putAt, if_pos hlt, getD_set_ne _ _ _ _ (by omega)]
        exact firstFree_lt_opened slots j hj
      · have heq : firstFree slots = slots.length := by omega
        rw [putAt, if_neg hlt, getD_append_lt _ _ _ (by omega)]
        exact firstFree_lt_opened slots j hj
    · rw [getD_set_self _ _ _ hlen]

/-- Claim C7: descriptor allocation is first-fit: `install_catalog` marks
the catalog open and stores it at the lowest-index slot whose open flag is
false (the first-fit index never exceeding the length, every earlier slot
being open, and the chosen in-range slot being closed; at the length,
`put_at` appends a new slot), returning that index; consequently opening
catalog A, closing A's descriptor, then opening catalog B yields for B the
same descriptor value A had. -/
theorem c7_first_fit :
    ∀ (slots : List Catalog) (cat : Catalog) (st : RegState) (c1 c2 : Catalog),
      (∀ j, j < firstFree slots → (slots.getD j default).is_opened = true)
      ∧ (firstFree slots < slots.length →
          (slots.getD (firstFree slots) default).is_opened = false)
      ∧ firstFree slots ≤ slots.length
      ∧ install_catalog cat (some slots)
          = (firstFree slots,
             some (putAt slots (firstFree slots) { cat with is_opened := true }))
      ∧ (install_catalog c2
            (catcloseFn (install_catalog c1 st).1 (install_catalog c1 st).2).2).1
          = (install_catalog c1 st).1 := by
  intro slots cat st c1 c2
  exact ⟨firstFree_lt_opened slots, firstFree_not_opened slots,
    firstFree_le_length slots, rfl, install_close_install c1 c2 st⟩

/-- Witness for `c7_first_fit`: registry `[open, closed]` with first-fit
index 1, all hypotheses discharged concretely. -/
theorem c7_first_fit_witness :
    (c7slots.getD 0 default).is_opened = true
    ∧ (c7slots.getD (firstFree c7slots) default).is_opened = false
    ∧ install_catalog c7cat (some c7slots)
        = (firstFree c7slots,
           some (putAt c7slots (firstFree c7slots) { c7cat with is_opened := true }))
    ∧ (install_catalog c7cat
          (catcloseFn (install_catalog c7cat none).1 (install_catalog c7cat none).2).2).1
        = (install_catalog c7cat none).1 := by
  have h := c7_first_fit c7slots c7cat none c7cat c7cat
  exact ⟨h.1 0 (by decide), h.2.1 (by decide), h.2.2.2.1, h.2.2.2.2⟩

/-- Claim C9: every `catgets` call — stored message, default with the
invalid-descriptor error, or default with the message-not-found error —
leaves the whole registry state unchanged (slot count, open flags and
message lists included). -/
theorem c9_catgets_frame :
    ∀ (st : RegState) (catd set_id msg_id : Nat) (s : List Nat),
      (catgetsFn st catd set_id msg_id s).2 = st := by
  intro st catd set_id msg_id s
  cases st with
  | none => rfl
  | some slots =>
    simp only [catgetsFn]
    by_cases h1 : slots.length ≤ catd
    · rw [if_pos h1]
    · rw [if_neg h1]
      by_cases h2 : (slots.getD catd default).is_opened = false
      · rw [if_pos h2]
      · rw [if_neg h2]
        cases hb : bsearchMsgs set_id msg_id (slots.getD catd default).msgs
        · rfl
        · rfl

/-- A failing candidate loop leaves the registry untouched. -/
theorem tryCands_fail_frame (fs : FileSys) :
    ∀ (ps : List (List Nat)) (st : RegState),
      (tryCands fs ps st).1 = none → (tryCands fs ps st).2 = st := by
  intro ps
  induction ps with
  | nil => intro st _; rfl
  | cons p ps ih =>
    intro st h
    cases hc : catread fs p with
    | none =>
      simp only [tryCands, hc] at h ⊢
      exact ih st h
    | some cat => simp [tryCands, hc] at h

/-- Claim C10: whenever `catopen` returns the failure sentinel — empty
name, an unreadable direct-path name, or no expanded candidate parsing
successfully — the registry is completely unchanged: no slot is created,
overwritten or marked open, and no descriptor is consumed. -/
theorem c10_catopen_failure_frame :
    ∀ (fs : FileSys) (e : Env) (name : List Nat) (fl : Bool) (st : RegState),
      (catopen fs e name fl st).1 = none → (catopen fs e name fl st).2 = st := by
  intro fs e name fl st h
  by_cases h1 : name = []
  · simp [catopen, h1]
  · by_cases h2 : name.any (fun c => c = 92 || c = 47 || c = 58)
    · cases hc : catread fs name with
      | none => simp [catopen, h1, h2, hc]
      | some cat => simp [catopen, h1, h2, hc] at h
    · simp only [catopen, h1, h2] at h ⊢
      simp only [if_neg h1, if_neg h2, Bool.false_eq_true] at h ⊢
      exact tryCands_fail_frame fs _ st h

/-- Witness for `c10_catopen_failure_frame`: the empty name on an empty
file system and a never-allocated registry. -/
theorem c10_failure_frame_witness :
    (catopen [] ⟨none, none, none, none⟩ [] false none).1 = none
    ∧ (catopen [] ⟨none, none, none, none⟩ [] false none).2 = none :=
  ⟨rfl, c10_catopen_failure_frame [] ⟨none, none, none, none⟩ [] false none rfl⟩

end Catgets
